import Mathlib

set_option maxRecDepth 20000

/-!
Shallow embedding of the `LinkTracker` tracking core of this repository
(`src/tracker.py`): token issuance, click recording, click statistics,
and the email/URL validation predicates.  Randomness and the system
clock are passed in explicitly (as `Except`-values, so that faults of
the random source or the clock can be modelled); everything else is a
direct translation of the Python code.
-/

/-- Split a character list at every occurrence of `sep`
(Python `str.split(sep)`): `splitOnChar 'T' "aTb".data = [['a'],['b']]`. -/
def splitOnChar (sep : Char) : List Char → List (List Char)
  | [] => [[]]
  | c :: cs =>
    match splitOnChar sep cs with
    | [] => [[]]
    | g :: gs => if c = sep then [] :: g :: gs else (c :: g) :: gs

/-- Parse a nonempty list of decimal digits as a `Nat`; `none` otherwise. -/
def parseDigits? (cs : List Char) : Option Nat :=
  if !cs.isEmpty && cs.all Char.isDigit then
    some (cs.foldl (fun a c => a * 10 + (c.toNat - 48)) 0)
  else none

/-- Decimal rendering of `n`, left-padded with zeros to width `w`. -/
def padZeros (w : Nat) (n : Nat) : String :=
  let s := toString n
  ⟨List.replicate (w - s.length) '0' ++ s.data⟩

/-- First `n` characters of a string (Python slicing `s[:n]`). -/
def takeChars (n : Nat) (s : String) : String :=
  ⟨s.data.take n⟩

/-- Gregorian calendar date `(year, month, day)` of a day index counted
from 1970-01-01 (the `civil_from_days` algorithm of Howard Hinnant, as used
by every `datetime` implementation). -/
def civilFromDays (day : Nat) : Nat × Nat × Nat :=
  let z := day + 719468
  let era := z / 146097
  let doe := z % 146097
  let yoe := (doe - doe / 1460 + doe / 36524 - doe / 146096) / 365
  let y := yoe + era * 400
  let doy := doe - (365 * yoe + yoe / 4 - yoe / 100)
  let mp := (5 * doy + 2) / 153
  let d := doy - (153 * mp + 2) / 5 + 1
  let m := if mp < 10 then mp + 3 else mp - 9
  (if m ≤ 2 then y + 1 else y, m, d)

/-- Inverse of `civilFromDays`: day index since 1970-01-01 of a
Gregorian date (valid for dates from 1970 on). -/
def daysFromCivil (y m d : Nat) : Nat :=
  let yy := if m ≤ 2 then y - 1 else y
  let era := yy / 400
  let yoe := yy % 400
  let mp := if m ≤ 2 then m + 9 else m - 3
  let doy := (153 * mp + 2) / 5 + d - 1
  let doe := yoe * 365 + yoe / 4 - yoe / 100 + doy
  era * 146097 + doe - 719468

/-- A UTC instant at `datetime` resolution: a day index since 1970-01-01
and a microsecond offset within the day (`usec < 86400000000`). -/
structure PyDateTime where
  day : Nat
  usec : Nat
deriving DecidableEq, Repr

/-- Python `datetime` comparison `a < b` (instants compare
chronologically). -/
def PyDateTime.lt (a b : PyDateTime) : Bool :=
  a.day < b.day || (a.day == b.day && a.usec < b.usec)

/-- Python `timedelta(days := n)` addition: `dt + n` days. -/
def PyDateTime.addDays (dt : PyDateTime) (n : Nat) : PyDateTime :=
  { dt with day := dt.day + n }

/-- The `"YYYY-MM-DD"` date part of `isoformat`. -/
def dateString (day : Nat) : String :=
  let ymd := civilFromDays day
  padZeros 4 ymd.1 ++ "-" ++ padZeros 2 ymd.2.1 ++ "-" ++ padZeros 2 ymd.2.2

/-- The `"HH:MM:SS[.ffffff]"` time part of `isoformat`; like Python, the
microsecond field is printed only when it is nonzero. -/
def timeString (usec : Nat) : String :=
  let s := usec / 1000000
  let us := usec % 1000000
  let base := padZeros 2 (s / 3600) ++ ":" ++ padZeros 2 (s / 60 % 60) ++ ":" ++ padZeros 2 (s % 60)
  if us = 0 then base else base ++ "." ++ padZeros 6 us

/-- Python `datetime.isoformat()`: `"YYYY-MM-DDTHH:MM:SS[.ffffff]"`. -/
def PyDateTime.isoformat (dt : PyDateTime) : String :=
  dateString dt.day ++ "T" ++ timeString dt.usec

/-- Parse the `"YYYY-MM-DD"` part of an ISO timestamp. -/
def parseDatePart (cs : List Char) : Except String Nat :=
  match splitOnChar '-' cs with
  | [ys, ms, ds] =>
    match parseDigits? ys, parseDigits? ms, parseDigits? ds with
    | some y, some m, some d =>
      if 1 ≤ m && m ≤ 12 && 1 ≤ d && d ≤ 31 && 1970 ≤ y then
        Except.ok (daysFromCivil y m d)
      else Except.error "Invalid isoformat string"
    | _, _, _ => Except.error "Invalid isoformat string"
  | _ => Except.error "Invalid isoformat string"

/-- Parse the `"HH:MM[:SS[.f{1..6}]]"` part of an ISO timestamp into a
microsecond offset within the day. -/
def parseTimePart (cs : List Char) : Except String Nat :=
  let fracVal : List Char → Except String Nat := fun fs =>
    match parseDigits? fs with
    | some f =>
      if fs.length ≤ 6 && 1 ≤ fs.length then
        Except.ok (f * 10 ^ (6 - fs.length))
      else Except.error "Invalid isoformat string"
    | none => Except.error "Invalid isoformat string"
  let secField : List Char → Except String (Nat × Nat) := fun ssf =>
    match splitOnChar '.' ssf with
    | [ss] =>
      match parseDigits? ss with
      | some s => if s ≤ 59 then Except.ok (s, 0) else Except.error "Invalid isoformat string"
      | none => Except.error "Invalid isoformat string"
    | [ss, fs] =>
      match parseDigits? ss, fracVal fs with
      | some s, Except.ok f =>
        if s ≤ 59 then Except.ok (s, f) else Except.error "Invalid isoformat string"
      | _, _ => Except.error "Invalid isoformat string"
    | _ => Except.error "Invalid isoformat string"
  match splitOnChar ':' cs with
  | [hs, ms] =>
    match parseDigits? hs, parseDigits? ms with
    | some h, some m =>
      if h ≤ 23 && m ≤ 59 then Except.ok (((h * 60 + m) * 60) * 1000000)
      else Except.error "Invalid isoformat string"
    | _, _ => Except.error "Invalid isoformat string"
  | [hs, ms, ssf] =>
    match parseDigits? hs, parseDigits? ms, secField ssf with
    | some h, some m, Except.ok sf =>
      if h ≤ 23 && m ≤ 59 then
        Except.ok (((h * 60 + m) * 60 + sf.1) * 1000000 + sf.2)
      else Except.error "Invalid isoformat string"
    | _, _, _ => Except.error "Invalid isoformat string"
  | _ => Except.error "Invalid isoformat string"

/-- Python `datetime.fromisoformat`: inverse of `isoformat`, raising
(`Except.error`) on a malformed string. -/
def fromisoformat (s : String) : Except String PyDateTime :=
  match splitOnChar 'T' s.data with
  | [ds] =>
    match parseDatePart ds with
    | Except.ok day => Except.ok ⟨day, 0⟩
    | Except.error e => Except.error e
  | [ds, ts] =>
    match parseDatePart ds, parseTimePart ts with
    | Except.ok day, Except.ok usec => Except.ok ⟨day, usec⟩
    | _, _ => Except.error "Invalid isoformat string"
  | _ => Except.error "Invalid isoformat string"

example : dateString 0 = "1970-01-01" := by decide
example : dateString 19723 = "2024-01-01" := by decide
example : PyDateTime.isoformat ⟨19723, 0⟩ = "2024-01-01T00:00:00" := by decide
example : PyDateTime.isoformat ⟨19723, 3661000007⟩ = "2024-01-01T01:01:01.000007" := by decide
instance {ε α : Type} [DecidableEq ε] [DecidableEq α] : DecidableEq (Except ε α) := fun x y =>
  match x, y with
  | Except.ok a, Except.ok b =>
    if h : a = b then isTrue (by rw [h]) else isFalse (by simp [h])
  | Except.error e, Except.error f =>
    if h : e = f then isTrue (by rw [h]) else isFalse (by simp [h])
  | Except.ok _, Except.error _ => isFalse (by simp)
  | Except.error _, Except.ok _ => isFalse (by simp)

example : fromisoformat "2024-01-01T01:01:01.000007" = Except.ok ⟨19723, 3661000007⟩ := by decide
example : fromisoformat "2100-01-01T00:00:00" = Except.ok ⟨47482, 0⟩ := by decide
example : fromisoformat "not-a-date" = Except.error "Invalid isoformat string" := by decide

/-- 32-bit right rotation of `x` by `n` (for `x < 2 ^ 32`, `0 < n < 32`). -/
def rotr32 (x n : Nat) : Nat :=
  (x / 2 ^ n + x % 2 ^ n * 2 ^ (32 - n)) % 2 ^ 32

/-- UTF-8 encoding of one character, as byte values. -/
def utf8Encode (c : Char) : List Nat :=
  let n := c.toNat
  if n < 128 then [n]
  else if n < 2048 then [192 + n / 64, 128 + n % 64]
  else if n < 65536 then [224 + n / 4096, 128 + n / 64 % 64, 128 + n % 64]
  else [240 + n / 262144, 128 + n / 4096 % 64, 128 + n / 64 % 64, 128 + n % 64]

/-- UTF-8 bytes of a string (Python `str.encode()`). -/
def strBytes (s : String) : List Nat :=
  s.data.foldr (fun c acc => utf8Encode c ++ acc) []

/-- SHA-256 message padding: `0x80`, zeros to 56 mod 64, then the
bit length as 8 big-endian bytes. -/
def sha256pad (msg : List Nat) : List Nat :=
  let L := msg.length
  let k := (120 - (L + 1) % 64) % 64
  msg ++ [128] ++ List.replicate k 0 ++
    (List.range 8).map (fun i => L * 8 / 2 ^ (8 * (7 - i)) % 256)

/-- Split a byte list into 64-byte chunks. -/
def chunks64 : List Nat → List (List Nat)
  | [] => []
  | b :: bs => (b :: bs).take 64 :: chunks64 ((b :: bs).drop 64)
termination_by l => l.length
decreasing_by simp; omega

/-- The sixteen 32-bit big-endian words of one 64-byte chunk. -/
def wordsOfChunk (c : List Nat) : List Nat :=
  (List.range 16).map (fun i =>
    ((c.getD (4 * i) 0 * 256 + c.getD (4 * i + 1) 0) * 256 +
      c.getD (4 * i + 2) 0) * 256 + c.getD (4 * i + 3) 0)

def smallSigma0 (x : Nat) : Nat := rotr32 x 7 ^^^ rotr32 x 18 ^^^ x / 2 ^ 3

def smallSigma1 (x : Nat) : Nat := rotr32 x 17 ^^^ rotr32 x 19 ^^^ x / 2 ^ 10

def bigSigma0 (x : Nat) : Nat := rotr32 x 2 ^^^ rotr32 x 13 ^^^ rotr32 x 22

def bigSigma1 (x : Nat) : Nat := rotr32 x 6 ^^^ rotr32 x 11 ^^^ rotr32 x 25

def chFn (x y z : Nat) : Nat := (x &&& y) ^^^ ((2 ^ 32 - 1 - x) &&& z)

def majFn (x y z : Nat) : Nat := (x &&& y) ^^^ (x &&& z) ^^^ (y &&& z)

/-- Extend the 16 schedule words to 64 (the argument is remaining fuel). -/
def extendSchedule : Nat → List Nat → List Nat
  | 0, w => w
  | n + 1, w =>
    let i := w.length
    let nw := (smallSigma1 (w.getD (i - 2) 0) + w.getD (i - 7) 0 +
      smallSigma0 (w.getD (i - 15) 0) + w.getD (i - 16) 0) % 2 ^ 32
    extendSchedule n (w ++ [nw])

/-- One SHA-256 compression round over the 8-word working state. -/
def compressStep (st : List Nat) (kw : Nat × Nat) : List Nat :=
  match st with
  | [a, b, c, d, e, f, g, h] =>
    let t1 := (h + bigSigma1 e + chFn e f g + kw.1 + kw.2) % 2 ^ 32
    let t2 := (bigSigma0 a + majFn a b c) % 2 ^ 32
    [(t1 + t2) % 2 ^ 32, a, b, c, (d + t1) % 2 ^ 32, e, f, g]
  | _ => st

/-- The 64 SHA-256 round constants of FIPS 180-4, written in decimal. -/
def sha256K : List Nat :=
  [1116352408, 1899447441, 3049323471, 3921009573, 961987163, 1508970993,
   2453635748, 2870763221, 3624381080, 310598401, 607225278, 1426881987,
   1925078388, 2162078206, 2614888103, 3248222580, 3835390401, 4022224774,
   264347078, 604807628, 770255983, 1249150122, 1555081692, 1996064986,
   2554220882, 2821834349, 2952996808, 3210313671, 3336571891, 3584528711,
   113926993, 338241895, 666307205, 773529912, 1294757372, 1396182291,
   1695183700, 1986661051, 2177026350, 2456956037, 2730485921, 2820302411,
   3259730800, 3345764771, 3516065817, 3600352804, 4094571909, 275423344,
   430227734, 506948616, 659060556, 883997877, 958139571, 1322822218,
   1537002063, 1747873779, 1955562222, 2024104815, 2227730452, 2361852424,
   2428436474, 2756734187, 3204031479, 3329325298]

/-- The eight SHA-256 initial hash words, written in decimal. -/
def sha256init : List Nat :=
  [1779033703, 3144134277, 1013904242, 2773480762, 1359893119, 2600822924,
   528734635, 1541459225]

/-- Process one 64-byte chunk into the running hash value. -/
def processChunk (h : List Nat) (chunk : List Nat) : List Nat :=
  let w := extendSchedule 48 (wordsOfChunk chunk)
  let st := (sha256K.zip w).foldl compressStep h
  (h.zip st).map (fun p => (p.1 + p.2) % 2 ^ 32)

def hexDigitChar (n : Nat) : Char :=
  "0123456789abcdef".data.getD n '0'

/-- Lower-case hexadecimal rendering of a 32-bit word, 8 digits. -/
def toHex8 (x : Nat) : String :=
  ⟨(List.range 8).map (fun i => hexDigitChar (x / 16 ^ (7 - i) % 16))⟩

/-- SHA-256 hex digest of a string (Python
`hashlib.sha256(s.encode()).hexdigest()`). -/
def sha256hex (s : String) : String :=
  String.join (((chunks64 (sha256pad (strBytes s))).foldl processChunk sha256init).map toHex8)


/-- Method `_generate_click_hash` of `LinkTracker`: the SHA-256 hex
digest of the string `token ++ ":" ++ ip_address`. -/
def generate_click_hash (token ip_address : String) : String :=
  sha256hex (token ++ ":" ++ ip_address)

/-- One click entry (`click_data` in `LinkTracker.track_click`). -/
structure ClickRecord where
  ip_address : String
  user_agent : String
  timestamp : String
  click_hash : String
deriving DecidableEq, Repr

/-- One token entry (the dictionary stored in `LinkTracker._tokens`). -/
structure TokenRecord where
  target_url : String
  email : Option String
  campaign : String
  created_at : String
  expires_at : String
  click_count : Nat
deriving DecidableEq, Repr

/-- The process-wide state: `LinkTracker._tokens` and
`LinkTracker._clicks`, modelled as insertion-ordered association lists
(Python `dict`s keyed by the token string). -/
structure Store where
  tokens : List (String × TokenRecord)
  clicks : List (String × List ClickRecord)
deriving DecidableEq, Repr

/-- Dictionary lookup `m[k]` / `k in m` on an association list. -/
def lookupA {α : Type} : List (String × α) → String → Option α
  | [], _ => none
  | (k, v) :: rest, key => if k = key then some v else lookupA rest key

/-- Dictionary assignment `m[k] = v`: replaces an existing binding in
place, else appends (Python 3.7+ `dict` semantics). -/
def insertA {α : Type} : List (String × α) → String → α → List (String × α)
  | [], key, v => [(key, v)]
  | (k, w) :: rest, key, v =>
    if k = key then (key, v) :: rest else (k, w) :: insertA rest key v

/-- The dictionary returned by `track_click`.  A Python failure dict
carries only `success` and `error`; a success dict carries `success`,
`target_url`, `timestamp` and `click_count`; absent keys are `none`. -/
structure TrackResult where
  success : Bool
  error : Option String
  target_url : Option String
  timestamp : Option String
  click_count : Option Nat
deriving DecidableEq, Repr

/-- The failure dictionary: `success` false, `error` the message. -/
def failureResult (msg : String) : TrackResult :=
  { success := false, error := some msg, target_url := none,
    timestamp := none, click_count := none }

/-- Method `generate_token(target_url, email, campaign)` of
`LinkTracker`.
`rand` is the result of `secrets.token_urlsafe(self.token_length)` and
`now1`, `now2` the results of the two successive `datetime.utcnow()`
calls (lines 44 and 45); each is an `Except` so a raising random source
or clock can be modelled.  Any such fault propagates (`raise`).
Returns the token together with the updated store. -/
def generate_token (s : Store) (target_url : String) (email : Option String)
    (campaign : String) (rand : Except String String)
    (now1 now2 : Except String PyDateTime) : Except String (String × Store) :=
  match rand with
  | Except.error e => Except.error e
  | Except.ok token =>
    match now1 with
    | Except.error e => Except.error e
    | Except.ok n1 =>
      match now2 with
      | Except.error e => Except.error e
      | Except.ok n2 =>
        let record : TokenRecord :=
          { target_url := target_url, email := email, campaign := campaign,
            created_at := n1.isoformat,
            expires_at := (n2.addDays 90).isoformat,
            click_count := 0 }
        Except.ok (token,
          { tokens := insertA s.tokens token record,
            clicks := insertA s.clicks token [] })

/-- The body of the `try` block of `LinkTracker.track_click`: everything up
to but not including the `except` clause.  `now1` is the `utcnow()` of
the expiry comparison (line 81), `now2` the `utcnow()` stored in the
click record (line 89).  `Except.error` is a raised exception. -/
def track_click_raw (s : Store) (token ip_address user_agent : String)
    (now1 now2 : Except String PyDateTime) : Except String (TrackResult × Store) :=
  match lookupA s.tokens token with
  | none => Except.ok (failureResult "Invalid token", s)
  | some token_data =>
    match fromisoformat token_data.expires_at with
    | Except.error e => Except.error e
    | Except.ok expires_at =>
      match now1 with
      | Except.error e => Except.error e
      | Except.ok n1 =>
        if PyDateTime.lt expires_at n1 then
          Except.ok (failureResult "Token expired", s)
        else
          match now2 with
          | Except.error e => Except.error e
          | Except.ok n2 =>
            let click_data : ClickRecord :=
              { ip_address := ip_address, user_agent := user_agent,
                timestamp := n2.isoformat,
                click_hash := generate_click_hash token ip_address }
            match lookupA s.clicks token with
            | none => Except.error "KeyError"
            | some clicks =>
              Except.ok
                ({ success := true, error := none,
                   target_url := some token_data.target_url,
                   timestamp := some click_data.timestamp,
                   click_count := some (token_data.click_count + 1) },
                 { tokens := insertA s.tokens token
                     { token_data with click_count := token_data.click_count + 1 },
                   clicks := insertA s.clicks token (clicks ++ [click_data]) })

/-- Method `track_click` of `LinkTracker`: the `try` body with its
`except` clause,
which catches any exception `e` and returns
`{"success": False, "error": str(e)}`, leaving the store unchanged. -/
def track_click (s : Store) (token ip_address user_agent : String)
    (now1 now2 : Except String PyDateTime) : TrackResult × Store :=
  match track_click_raw s token ip_address user_agent now1 now2 with
  | Except.ok r => r
  | Except.error e => (failureResult e, s)

/-- Result of `LinkTracker.get_token_info`: the token record merged
with its click list. -/
structure TokenInfo where
  record : TokenRecord
  clicks : List ClickRecord
deriving DecidableEq, Repr

/-- Method `get_token_info(token)` of `LinkTracker`. -/
def get_token_info (s : Store) (token : String) : Option TokenInfo :=
  match lookupA s.tokens token with
  | none => none
  | some record => some { record := record, clicks := (lookupA s.clicks token).getD [] }

/-- The date key of a click: its timestamp split at the letter T,
first part (line 149 of the source). -/
def datePartOf (ts : String) : String :=
  ⟨(splitOnChar 'T' ts.data).headD []⟩

/-- The counting idiom of lines 150 and 156 of the source: look the
key up with default 0, add one, store back. -/
def bumpCount (m : List (String × Nat)) (key : String) : List (String × Nat) :=
  insertA m key ((lookupA m key).getD 0 + 1)

/-- The statistics dictionary returned by `get_click_stats`. -/
structure ClickStats where
  total_clicks : Nat
  unique_ips : Nat
  clicks_by_date : List (String × Nat)
  clicks_by_user_agent : List (String × Nat)
  first_click : Option String
  last_click : Option String
deriving DecidableEq, Repr

/-- Method `get_click_stats(token)` of `LinkTracker`. -/
def get_click_stats (s : Store) (token : String) : Option ClickStats :=
  match lookupA s.tokens token with
  | none => none
  | some _ =>
    let clicks := (lookupA s.clicks token).getD []
    some
      { total_clicks := clicks.length,
        unique_ips := (clicks.map (fun c => c.ip_address)).dedup.length,
        clicks_by_date :=
          clicks.foldl (fun m c => bumpCount m (datePartOf c.timestamp)) [],
        clicks_by_user_agent :=
          clicks.foldl (fun m c => bumpCount m (takeChars 50 c.user_agent)) [],
        first_click := clicks.head?.map (fun c => c.timestamp),
        last_click := clicks.getLast?.map (fun c => c.timestamp) }

/-- Method `clear_all()` of `LinkTracker`. -/
def clear_all (_ : Store) : Store :=
  { tokens := [], clicks := [] }

/-- Quantifier of one regular-expression atom: exactly one (`x`),
optional (`x?`), or Kleene star (`x*`). -/
inductive Quant where
  | one
  | opt
  | star
deriving DecidableEq, Repr

/-- One atom of a linear regular expression: a character class together
with a quantifier.  Both validator regexes of `LinkTracker` are linear
sequences of such atoms (`x+` is `x x*` and `x{2,}` is `x x x*`). -/
structure RAtom where
  cls : Char → Bool
  quant : Quant

/-- Backtracking matcher for a linear pattern, anchored on both sides
as `re.match` with a pattern of the form `^...$` is: matching starts at
position 0, and when the atoms are exhausted the Python `$` (without
`MULTILINE`) must hold, i.e. the rest is empty or a single trailing
newline. -/
def matchAtoms : List RAtom → List Char → Bool
  | [], cs => cs.isEmpty || cs == ['\n']
  | ⟨_, Quant.one⟩ :: _, [] => false
  | ⟨cls, Quant.one⟩ :: ps, c :: cs => cls c && matchAtoms ps cs
  | ⟨_, Quant.opt⟩ :: ps, [] => matchAtoms ps []
  | ⟨cls, Quant.opt⟩ :: ps, c :: cs =>
    (cls c && matchAtoms ps cs) || matchAtoms ps (c :: cs)
  | ⟨_, Quant.star⟩ :: ps, [] => matchAtoms ps []
  | ⟨cls, Quant.star⟩ :: ps, c :: cs =>
    (cls c && matchAtoms (⟨cls, Quant.star⟩ :: ps) cs) || matchAtoms ps (c :: cs)
termination_by ps cs => (cs.length, ps.length)

/-- The class `[a-zA-Z0-9._%+-]` (email local part). -/
def isLocalChar (c : Char) : Bool :=
  c.isAlphanum || c = '.' || c = '_' || c = '%' || c = '+' || c = '-'

/-- The class `[a-zA-Z0-9.-]` (email domain part). -/
def isDomainChar (c : Char) : Bool :=
  c.isAlphanum || c = '.' || c = '-'

/-- Python `\s` for `str` patterns: the Unicode whitespace characters. -/
def pyIsSpace (c : Char) : Bool :=
  let n := c.toNat
  (9 ≤ n && n ≤ 13) || n = 28 || n = 29 || n = 30 || n = 31 || n = 32 ||
    n = 133 || n = 160 || n = 5760 || (8192 ≤ n && n ≤ 8202) ||
    n = 8232 || n = 8233 || n = 8239 || n = 8287 || n = 12288

/-- A literal-character atom. -/
def litAtom (c : Char) : RAtom :=
  ⟨fun x => x = c, Quant.one⟩

/-- A literal letter under `re.IGNORECASE` (ASCII case folding). -/
def ciLit (c : Char) : RAtom :=
  ⟨fun x => x = c || x = c.toUpper, Quant.one⟩

/-- The regex of `validate_email`, which reads
`^[a-zA-Z0-9._%+-]+@[a-zA-Z0-9.-]+\.[a-zA-Z]{2,}$`, transliterated
atom-by-atom: `x+` as `x x*` and `[a-zA-Z]{2,}` as two letters and a
letter star. -/
def emailPattern : List RAtom :=
  [⟨isLocalChar, Quant.one⟩, ⟨isLocalChar, Quant.star⟩,
   litAtom '@',
   ⟨isDomainChar, Quant.one⟩, ⟨isDomainChar, Quant.star⟩,
   litAtom '.',
   ⟨Char.isAlpha, Quant.one⟩, ⟨Char.isAlpha, Quant.one⟩,
   ⟨Char.isAlpha, Quant.star⟩]

/-- The regex of `validate_url`, which reads
`^https?://[^\s/$.?#].[^\s]*$` and is compiled with `re.IGNORECASE`,
transliterated atom-by-atom; the dot atom is any character but a
newline (`DOTALL` is off).  Under Unicode `IGNORECASE`, each scheme
letter matches every code point whose case folding equals it: for
`h`, `t` and `p` those are exactly the two ASCII cases, but the
literal `s` additionally matches U+017F LATIN SMALL LETTER LONG S
(the extra equivalence the `re` module applies beyond simple
lowercasing). -/
def urlPattern : List RAtom :=
  [ciLit 'h', ciLit 't', ciLit 't', ciLit 'p',
   ⟨fun x => x = 's' || x = 'S' || x = 'ſ', Quant.opt⟩,
   litAtom ':', litAtom '/', litAtom '/',
   ⟨fun c => !(pyIsSpace c || c = '/' || c = '$' || c = '.' || c = '?' || c = '#'), Quant.one⟩,
   ⟨fun c => !(c = '\n'), Quant.one⟩,
   ⟨fun c => !pyIsSpace c, Quant.star⟩]

/-- Method `validate_email(email)` of `LinkTracker`: whether
`re.match(pattern, email)` is not None. -/
def validate_email (email : String) : Bool :=
  matchAtoms emailPattern email.data

/-- Method `validate_url(url)` of `LinkTracker`: whether
`re.match(pattern, url, re.IGNORECASE)` is not None. -/
def validate_url (url : String) : Bool :=
  matchAtoms urlPattern url.data


/-- The stores reachable from the initial empty store (`_tokens = {}`,
`_clicks = {}`) by any sequence of core calls with arbitrary arguments,
including calls whose injected random source or clock faults.
`get_click_stats` and `get_token_info` are pure and never change the
store, so they contribute no transition. -/
inductive Reachable : Store → Prop where
  | init : Reachable ⟨[], []⟩
  | gen {s : Store} {url : String} {email : Option String} {campaign : String}
      {rand : Except String String} {now1 now2 : Except String PyDateTime}
      {token : String} {s2 : Store} :
      Reachable s →
      generate_token s url email campaign rand now1 now2 = Except.ok (token, s2) →
      Reachable s2
  | track {s : Store} {token ip ua : String} {now1 now2 : Except String PyDateTime} :
      Reachable s → Reachable (track_click s token ip ua now1 now2).2
  | clear {s : Store} : Reachable s → Reachable (clear_all s)

/-- The store invariant of claim C10: every stored token owns a click
list, and its stored `click_count` equals the length of that list. -/
def StoreInv (s : Store) : Prop :=
  ∀ t r, lookupA s.tokens t = some r →
    ∃ cs, lookupA s.clicks t = some cs ∧ r.click_count = cs.length

theorem lookupA_insertA_self {α : Type} (l : List (String × α)) (k : String) (v : α) :
    lookupA (insertA l k v) k = some v := by
  induction l with
  | nil => simp [insertA, lookupA]
  | cons p rest ih =>
    obtain ⟨k0, v0⟩ := p
    by_cases h : k0 = k <;> simp [insertA, lookupA, h, ih]

theorem lookupA_insertA_ne {α : Type} (l : List (String × α)) (k k2 : String) (v : α)
    (h : k ≠ k2) : lookupA (insertA l k v) k2 = lookupA l k2 := by
  induction l with
  | nil => simp [insertA, lookupA, h]
  | cons p rest ih =>
    obtain ⟨k0, v0⟩ := p
    by_cases h0 : k0 = k
    · subst h0; simp [insertA, lookupA, h]
    · simp [insertA, lookupA, h0, ih]

theorem lookupA_foldl_bump_getD {α : Type} (f : α → String) (xs : List α)
    (m : List (String × Nat)) (k : String) :
    (lookupA (xs.foldl (fun acc c => bumpCount acc (f c)) m) k).getD 0
      = (lookupA m k).getD 0 + xs.countP (fun c => f c == k) := by
  induction xs generalizing m with
  | nil => simp
  | cons x xs ih =>
    simp only [List.foldl_cons, ih, List.countP_cons]
    by_cases h : f x = k
    · simp [bumpCount, h, lookupA_insertA_self]
      omega
    · simp [bumpCount, lookupA_insertA_ne _ _ _ _ h, h]

theorem lookupA_foldl_bump_none {α : Type} (f : α → String) (xs : List α)
    (m : List (String × Nat)) (k : String) :
    lookupA (xs.foldl (fun acc c => bumpCount acc (f c)) m) k = none ↔
      lookupA m k = none ∧ xs.countP (fun c => f c == k) = 0 := by
  induction xs generalizing m with
  | nil => simp
  | cons x xs ih =>
    simp only [List.foldl_cons, ih, List.countP_cons]
    by_cases h : f x = k
    · simp [bumpCount, h, lookupA_insertA_self]
    · simp [bumpCount, lookupA_insertA_ne _ _ _ _ h, h]

theorem storeInv_empty : StoreInv ⟨[], []⟩ := by
  intro t r h
  simp [lookupA] at h

theorem storeInv_gen {s : Store} {url : String} {email : Option String} {campaign : String}
    {rand : Except String String} {now1 now2 : Except String PyDateTime}
    {token : String} {s2 : Store}
    (hgen : generate_token s url email campaign rand now1 now2 = Except.ok (token, s2))
    (hinv : StoreInv s) : StoreInv s2 := by
  match rand, now1, now2 with
  | Except.error e, _, _ => simp [generate_token] at hgen
  | Except.ok tok, Except.error e, _ => simp [generate_token] at hgen
  | Except.ok tok, Except.ok n1, Except.error e => simp [generate_token] at hgen
  | Except.ok tok, Except.ok n1, Except.ok n2 =>
    simp only [generate_token, Except.ok.injEq, Prod.mk.injEq] at hgen
    obtain ⟨rfl, rfl⟩ := hgen
    intro t r h
    by_cases ht : tok = t
    · subst ht
      rw [lookupA_insertA_self] at h
      injection h with h2
      refine ⟨[], by rw [lookupA_insertA_self], ?_⟩
      rw [← h2]
      rfl
    · rw [lookupA_insertA_ne _ _ _ _ ht] at h
      obtain ⟨cs, hcs, hlen⟩ := hinv t r h
      exact ⟨cs, by rwa [lookupA_insertA_ne _ _ _ _ ht], hlen⟩

/-- Case analysis on the store left by `track_click`: either nothing
changed (unknown token, expired token, or an exception caught by the
`except` clause), or the one new click was appended and the count
incremented. -/
theorem track_click_snd_cases (s : Store) (token ip ua : String)
    (now1 now2 : Except String PyDateTime) :
    (track_click s token ip ua now1 now2).2 = s ∨
    ∃ token_data clicks n2, lookupA s.tokens token = some token_data ∧
      lookupA s.clicks token = some clicks ∧ now2 = Except.ok n2 ∧
      (track_click s token ip ua now1 now2).2 =
        { tokens := insertA s.tokens token
            { token_data with click_count := token_data.click_count + 1 },
          clicks := insertA s.clicks token
            (clicks ++ [⟨ip, ua, n2.isoformat, generate_click_hash token ip⟩]) } := by
  cases h1 : lookupA s.tokens token with
  | none => left; simp [track_click, track_click_raw, h1]
  | some td =>
    cases he : fromisoformat td.expires_at with
    | error e => left; simp [track_click, track_click_raw, h1, he]
    | ok ex =>
      cases now1 with
      | error e => left; simp [track_click, track_click_raw, h1, he]
      | ok n1 =>
        cases hlt : PyDateTime.lt ex n1 with
        | true => left; simp [track_click, track_click_raw, h1, he, hlt]
        | false =>
          cases now2 with
          | error e => left; simp [track_click, track_click_raw, h1, he, hlt]
          | ok n2 =>
            cases hc : lookupA s.clicks token with
            | none => left; simp [track_click, track_click_raw, h1, he, hlt, hc]
            | some clicks =>
              right
              exact ⟨td, clicks, n2, rfl, rfl, rfl,
                by simp [track_click, track_click_raw, h1, he, hlt, hc]⟩

theorem storeInv_track {s : Store} (token ip ua : String)
    (now1 now2 : Except String PyDateTime) (hinv : StoreInv s) :
    StoreInv (track_click s token ip ua now1 now2).2 := by
  rcases track_click_snd_cases s token ip ua now1 now2 with h | ⟨td, clicks, n2, h1, hc, _, h⟩
  · rw [h]; exact hinv
  · rw [h]
    intro t r hr
    by_cases ht : token = t
    · subst ht
      rw [lookupA_insertA_self] at hr
      injection hr with hr2
      obtain ⟨cs0, hcs0, hlen0⟩ := hinv token td h1
      rw [hc] at hcs0
      injection hcs0 with hcs0
      refine ⟨clicks ++ [⟨ip, ua, n2.isoformat, generate_click_hash token ip⟩],
        by rw [lookupA_insertA_self], ?_⟩
      rw [← hr2]
      simp [← hcs0, hlen0]
    · rw [lookupA_insertA_ne _ _ _ _ ht] at hr
      obtain ⟨cs, hcs, hlen⟩ := hinv t r hr
      exact ⟨cs, by rwa [lookupA_insertA_ne _ _ _ _ ht], hlen⟩

theorem storeInv_clear (s : Store) : StoreInv (clear_all s) := by
  intro t r h
  simp [clear_all, lookupA] at h

theorem reachable_storeInv {s : Store} (h : Reachable s) : StoreInv s := by
  induction h with
  | init => exact storeInv_empty
  | gen _ hgen ih => exact storeInv_gen hgen ih
  | track _ ih => exact storeInv_track _ _ _ _ _ ih
  | clear _ ih => exact storeInv_clear _

/-- A concrete token record used by the example stores below
(created 2024-01-01, expiring 2024-03-31 = 90 days later). -/
def sampleToken : TokenRecord :=
  { target_url := "https://example.com/x", email := some "a@b.co", campaign := "default",
    created_at := "2024-01-01T00:00:00", expires_at := "2024-03-31T00:00:00",
    click_count := 3 }

/-- Three concrete clicks: two from `1.1.1.1` on 2024-01-02, one from
`2.2.2.2` on 2024-01-03 (the IP multiset of the example in the spec). -/
def sampleClicks : List ClickRecord :=
  [{ ip_address := "1.1.1.1", user_agent := "Mozilla/5.0", timestamp := "2024-01-02T10:00:00", click_hash := "h1" },
   { ip_address := "1.1.1.1", user_agent := "Mozilla/5.0", timestamp := "2024-01-02T11:30:00", click_hash := "h2" },
   { ip_address := "2.2.2.2", user_agent := "Chrome", timestamp := "2024-01-03T09:00:00", click_hash := "h3" }]

/-- A concrete store holding one token with three clicks. -/
def sampleStore : Store :=
  ⟨[("tok", sampleToken)], [("tok", sampleClicks)]⟩

/-- The whole result of `track_click` on the success path. -/
theorem track_click_success (s : Store) (token ip ua : String) (r : TokenRecord)
    (e n1 n2 : PyDateTime) (cs : List ClickRecord)
    (hr : lookupA s.tokens token = some r)
    (he : fromisoformat r.expires_at = Except.ok e)
    (hne : PyDateTime.lt e n1 = false)
    (hc : lookupA s.clicks token = some cs) :
    track_click s token ip ua (Except.ok n1) (Except.ok n2) =
      ({ success := true, error := none, target_url := some r.target_url,
         timestamp := some n2.isoformat, click_count := some (r.click_count + 1) },
       { tokens := insertA s.tokens token { r with click_count := r.click_count + 1 },
         clicks := insertA s.clicks token
           (cs ++ [{ ip_address := ip, user_agent := ua, timestamp := n2.isoformat,
                     click_hash := generate_click_hash token ip }]) }) := by
  simp [track_click, track_click_raw, hr, he, hne, hc]

/-- Unfolding of `get_click_stats` on a known token. -/
theorem get_click_stats_eq (s : Store) (token : String) (r : TokenRecord)
    (hr : lookupA s.tokens token = some r) :
    get_click_stats s token = some
      { total_clicks := ((lookupA s.clicks token).getD []).length,
        unique_ips := (((lookupA s.clicks token).getD []).map (fun c => c.ip_address)).dedup.length,
        clicks_by_date := ((lookupA s.clicks token).getD []).foldl
          (fun m c => bumpCount m (datePartOf c.timestamp)) [],
        clicks_by_user_agent := ((lookupA s.clicks token).getD []).foldl
          (fun m c => bumpCount m (takeChars 50 c.user_agent)) [],
        first_click := ((lookupA s.clicks token).getD []).head?.map (fun c => c.timestamp),
        last_click := ((lookupA s.clicks token).getD []).getLast?.map (fun c => c.timestamp) } := by
  simp [get_click_stats, hr]

/-- C1: on a stored, unexpired token, `track_click` returns the success
dictionary carrying the target URL, the freshly recorded timestamp and
the incremented counter; it appends exactly the one new click record
(with the given IP, user agent, the fresh timestamp and the click hash)
to the click list of that token and increments its `click_count` by
exactly one; `get_click_stats` immediately afterwards reports
`total_clicks` larger by exactly one than before and `last_click` equal
to the just-recorded timestamp. -/
theorem track_click_valid_token_spec (s : Store) (token ip ua : String) (r : TokenRecord)
    (e n1 n2 : PyDateTime) (cs : List ClickRecord)
    (hr : lookupA s.tokens token = some r)
    (he : fromisoformat r.expires_at = Except.ok e)
    (hne : PyDateTime.lt e n1 = false)
    (hc : lookupA s.clicks token = some cs) :
    (track_click s token ip ua (Except.ok n1) (Except.ok n2)).1 =
      { success := true, error := none, target_url := some r.target_url,
        timestamp := some n2.isoformat, click_count := some (r.click_count + 1) } ∧
    lookupA (track_click s token ip ua (Except.ok n1) (Except.ok n2)).2.tokens token =
      some { r with click_count := r.click_count + 1 } ∧
    lookupA (track_click s token ip ua (Except.ok n1) (Except.ok n2)).2.clicks token =
      some (cs ++ [{ ip_address := ip, user_agent := ua, timestamp := n2.isoformat,
                     click_hash := generate_click_hash token ip }]) ∧
    (∃ st0 st1, get_click_stats s token = some st0 ∧
      get_click_stats (track_click s token ip ua (Except.ok n1) (Except.ok n2)).2 token = some st1 ∧
      st1.total_clicks = st0.total_clicks + 1 ∧
      st1.last_click = some n2.isoformat) := by
  rw [track_click_success s token ip ua r e n1 n2 cs hr he hne hc]
  refine ⟨rfl, lookupA_insertA_self _ _ _, lookupA_insertA_self _ _ _, ?_⟩
  refine ⟨_, _, get_click_stats_eq s token r hr,
    get_click_stats_eq _ token _ (lookupA_insertA_self _ _ _), ?_, ?_⟩
  · simp [hc, lookupA_insertA_self]
  · simp [lookupA_insertA_self]

/-- Witness for C1 on a concrete store. -/
theorem track_click_valid_token_spec_witness :
    (track_click sampleStore "tok" "3.3.3.3" "Safari" (Except.ok ⟨19724, 0⟩) (Except.ok ⟨19724, 0⟩)).1 =
      { success := true, error := none, target_url := some "https://example.com/x",
        timestamp := some "2024-01-02T00:00:00", click_count := some 4 } ∧
    lookupA (track_click sampleStore "tok" "3.3.3.3" "Safari" (Except.ok ⟨19724, 0⟩) (Except.ok ⟨19724, 0⟩)).2.tokens "tok" =
      some { sampleToken with click_count := 4 } ∧
    lookupA (track_click sampleStore "tok" "3.3.3.3" "Safari" (Except.ok ⟨19724, 0⟩) (Except.ok ⟨19724, 0⟩)).2.clicks "tok" =
      some (sampleClicks ++ [{ ip_address := "3.3.3.3", user_agent := "Safari",
                               timestamp := "2024-01-02T00:00:00",
                               click_hash := generate_click_hash "tok" "3.3.3.3" }]) ∧
    (∃ st0 st1, get_click_stats sampleStore "tok" = some st0 ∧
      get_click_stats (track_click sampleStore "tok" "3.3.3.3" "Safari" (Except.ok ⟨19724, 0⟩) (Except.ok ⟨19724, 0⟩)).2 "tok" = some st1 ∧
      st1.total_clicks = st0.total_clicks + 1 ∧
      st1.last_click = some "2024-01-02T00:00:00") := by
  have h := track_click_valid_token_spec sampleStore "tok" "3.3.3.3" "Safari" sampleToken
    ⟨19813, 0⟩ ⟨19724, 0⟩ ⟨19724, 0⟩ sampleClicks (by decide) (by decide) (by decide) (by decide)
  simpa using h

/-- C2: `track_click` on a token string absent from the store returns
`{"success": False, "error": "Invalid token"}` and leaves the whole
store unchanged. -/
theorem track_click_unknown_token (s : Store) (token ip ua : String)
    (now1 now2 : Except String PyDateTime)
    (h : lookupA s.tokens token = none) :
    track_click s token ip ua now1 now2 = (failureResult "Invalid token", s) := by
  simp [track_click, track_click_raw, h]

/-- Witness for C2: tracking `"doesnotexist"` on the sample store. -/
theorem track_click_unknown_token_witness :
    track_click sampleStore "doesnotexist" "1.2.3.4" "UA"
        (Except.ok ⟨19724, 0⟩) (Except.ok ⟨19724, 0⟩) =
      (failureResult "Invalid token", sampleStore) :=
  track_click_unknown_token sampleStore "doesnotexist" "1.2.3.4" "UA"
    (Except.ok ⟨19724, 0⟩) (Except.ok ⟨19724, 0⟩) (by decide)

/-- C3: on a stored token, if `expires_at` lies strictly before the
clock reading then `track_click` answers `Token expired` (an outcome
distinct from the unknown-token one) and changes nothing; while the
clock reading is at or before `expires_at`, the click is accepted. -/
theorem track_click_expiry_spec (s : Store) (token ip ua : String) (r : TokenRecord)
    (e : PyDateTime)
    (hr : lookupA s.tokens token = some r)
    (he : fromisoformat r.expires_at = Except.ok e) :
    (∀ n1 n2 : PyDateTime, PyDateTime.lt e n1 = true →
      track_click s token ip ua (Except.ok n1) (Except.ok n2) =
        (failureResult "Token expired", s)) ∧
    (∀ n1 n2 : PyDateTime, ∀ cs, PyDateTime.lt e n1 = false →
      lookupA s.clicks token = some cs →
      (track_click s token ip ua (Except.ok n1) (Except.ok n2)).1.success = true) ∧
    failureResult "Token expired" ≠ failureResult "Invalid token" := by
  refine ⟨?_, ?_, by decide⟩
  · intro n1 n2 hlt
    simp [track_click, track_click_raw, hr, he, hlt]
  · intro n1 n2 cs hlt hc
    rw [track_click_success s token ip ua r e n1 n2 cs hr he hlt hc]

/-- Witness for C3: the sample token expires 2024-03-31; a click in
2025 is rejected as expired, a click on 2024-01-02 is accepted. -/
theorem track_click_expiry_spec_witness :
    track_click sampleStore "tok" "9.9.9.9" "UA" (Except.ok ⟨20000, 0⟩) (Except.ok ⟨20000, 0⟩) =
      (failureResult "Token expired", sampleStore) ∧
    (track_click sampleStore "tok" "9.9.9.9" "UA" (Except.ok ⟨19724, 0⟩) (Except.ok ⟨19724, 0⟩)).1.success = true := by
  have h := track_click_expiry_spec sampleStore "tok" "9.9.9.9" "UA" sampleToken
    ⟨19813, 0⟩ (by decide) (by decide)
  exact ⟨h.1 ⟨20000, 0⟩ ⟨20000, 0⟩ (by decide),
    h.2.1 ⟨19724, 0⟩ ⟨19724, 0⟩ sampleClicks (by decide) (by decide)⟩

/-- Counterexample to C5: `generate_token` reads the clock twice
(line 44 for `created_at`, line 45 for `expires_at`).  With the second
reading one microsecond after the first, the stored `expires_at`
(`2024-03-31T00:00:00.000001`) is not `created_at` plus 90 days
(`2024-03-31T00:00:00`). -/
theorem generate_token_ttl_counterexample :
    generate_token ⟨[], []⟩ "https://example.com/x" none "default"
        (Except.ok "tok") (Except.ok ⟨19723, 0⟩) (Except.ok ⟨19723, 1⟩)
      = Except.ok ("tok",
          ⟨[("tok", { target_url := "https://example.com/x", email := none, campaign := "default",
                      created_at := "2024-01-01T00:00:00",
                      expires_at := "2024-03-31T00:00:00.000001", click_count := 0 })],
           [("tok", [])]⟩) ∧
    fromisoformat "2024-01-01T00:00:00" = Except.ok ⟨19723, 0⟩ ∧
    "2024-03-31T00:00:00.000001" ≠ (PyDateTime.addDays ⟨19723, 0⟩ 90).isoformat :=
  ⟨by decide, by decide, by decide⟩

/-- C5 (amended): `generate_token` stores under the returned token a
fresh record with `click_count = 0` and an empty click list,
`created_at` equal to the first clock reading and `expires_at` equal to
the second clock reading plus exactly 90 days; when the two `utcnow()`
readings inside the call coincide, `expires_at` is exactly
`created_at + 90 days`. -/
theorem generate_token_creates_record (s : Store) (url : String) (email : Option String)
    (campaign tok : String) (n1 n2 : PyDateTime) :
    ∃ s2, generate_token s url email campaign (Except.ok tok) (Except.ok n1) (Except.ok n2)
        = Except.ok (tok, s2) ∧
      lookupA s2.tokens tok = some
        { target_url := url, email := email, campaign := campaign,
          created_at := n1.isoformat, expires_at := (n2.addDays 90).isoformat,
          click_count := 0 } ∧
      lookupA s2.clicks tok = some [] :=
  ⟨_, rfl, lookupA_insertA_self _ _ _, lookupA_insertA_self _ _ _⟩

/-- Counterexample to C6: a clock fault raised inside the `try` body
of `track_click` does not propagate — the `except` clause converts it
into the ordinary result value carrying `success` false and the fault
message as `error`, leaving the store unchanged. -/
theorem track_click_fault_counterexample :
    track_click_raw sampleStore "tok" "1.2.3.4" "UA"
        (Except.error "clock failure") (Except.ok ⟨19724, 0⟩)
      = Except.error "clock failure" ∧
    track_click sampleStore "tok" "1.2.3.4" "UA"
        (Except.error "clock failure") (Except.ok ⟨19724, 0⟩)
      = (failureResult "clock failure", sampleStore) :=
  ⟨by decide, by decide⟩

/-- C6 (amended): an unexpected fault (random source or clock) inside
`generate_token` propagates to the caller unchanged, and the store is
not touched; but a fault raised inside the `try` body of `track_click` is
caught by its `except` clause and converted into the ordinary result
value `{"success": False, "error": str(e)}`, with the store unchanged —
`track_click` never propagates a fault. -/
theorem fault_propagation_spec (s : Store) (url : String) (email : Option String)
    (campaign token ip ua msg : String) (now1 now2 : Except String PyDateTime) :
    generate_token s url email campaign (Except.error msg) now1 now2 = Except.error msg ∧
    (∀ tok, generate_token s url email campaign (Except.ok tok) (Except.error msg) now2
      = Except.error msg) ∧
    (∀ tok n1, generate_token s url email campaign (Except.ok tok) (Except.ok n1)
      (Except.error msg) = Except.error msg) ∧
    (∀ e, track_click_raw s token ip ua now1 now2 = Except.error e →
      track_click s token ip ua now1 now2 = (failureResult e, s)) := by
  refine ⟨rfl, fun tok => rfl, fun tok n1 => rfl, fun e he => ?_⟩
  simp [track_click, he]

/-- Witness for C6 (amended), at a concrete faulting clock. -/
theorem fault_propagation_spec_witness :
    generate_token sampleStore "https://example.com/x" none "default"
        (Except.error "entropy failure") (Except.ok ⟨19724, 0⟩) (Except.ok ⟨19724, 0⟩)
      = Except.error "entropy failure" ∧
    track_click sampleStore "tok" "1.2.3.4" "UA"
        (Except.error "clock failure") (Except.ok ⟨19724, 0⟩)
      = (failureResult "clock failure", sampleStore) := by
  have h := fault_propagation_spec sampleStore "https://example.com/x" none "default"
    "tok" "1.2.3.4" "UA" "entropy failure" (Except.error "clock failure") (Except.ok ⟨19724, 0⟩)
  refine ⟨h.1, ?_⟩
  have h2 := fault_propagation_spec sampleStore "https://example.com/x" none "default"
    "tok" "1.2.3.4" "UA" "clock failure" (Except.error "clock failure") (Except.ok ⟨19724, 0⟩)
  exact h2.2.2.2 "clock failure" (by decide)

/-- C9: `clear_all` empties both stores, and afterwards
`get_click_stats` answers absent (`none`) for every token string. -/
theorem clear_all_spec (s : Store) (token : String) :
    clear_all s = ⟨[], []⟩ ∧
    get_click_stats (clear_all s) token = none ∧
    get_token_info (clear_all s) token = none :=
  ⟨rfl, rfl, rfl⟩

/-- C10: in every store reachable by any sequence of core calls, each
stored token owns a click list whose length equals the stored
`click_count`, so the `total_clicks` reported by `get_click_stats`
always equals the stored `click_count`. -/
theorem tracker_store_invariant (s : Store) (h : Reachable s) :
    StoreInv s ∧
    ∀ t st, get_click_stats s t = some st →
      ∃ r, lookupA s.tokens t = some r ∧ st.total_clicks = r.click_count := by
  have hinv := reachable_storeInv h
  refine ⟨hinv, ?_⟩
  intro t st hst
  cases hr : lookupA s.tokens t with
  | none => simp [get_click_stats, hr] at hst
  | some r =>
    rw [get_click_stats_eq s t r hr] at hst
    injection hst with hst
    obtain ⟨cs, hcs, hlen⟩ := hinv t r hr
    refine ⟨r, rfl, ?_⟩
    rw [← hst]
    simp [hcs, hlen]

/-- Witness for C10: the store reached by one `generate_token` and one
`track_click` satisfies the invariant. -/
theorem tracker_store_invariant_witness :
    StoreInv (track_click
      ⟨[("tok", { target_url := "https://example.com/x", email := none, campaign := "default",
                  created_at := "2024-01-01T00:00:00", expires_at := "2024-03-31T00:00:00",
                  click_count := 0 })],
       [("tok", [])]⟩
      "tok" "1.1.1.1" "UA" (Except.ok ⟨19724, 0⟩) (Except.ok ⟨19724, 0⟩)).2 := by
  have hgen : generate_token ⟨[], []⟩ "https://example.com/x" none "default"
      (Except.ok "tok") (Except.ok ⟨19723, 0⟩) (Except.ok ⟨19723, 0⟩)
    = Except.ok ("tok",
        ⟨[("tok", { target_url := "https://example.com/x", email := none, campaign := "default",
                    created_at := "2024-01-01T00:00:00", expires_at := "2024-03-31T00:00:00",
                    click_count := 0 })],
         [("tok", [])]⟩) := by decide
  exact (tracker_store_invariant _ (Reachable.track (Reachable.gen Reachable.init hgen))).1
/-- The statistics `get_click_stats` computes on `sampleStore`. -/
def sampleStats : ClickStats :=
  { total_clicks := 3, unique_ips := 2,
    clicks_by_date := [("2024-01-02", 2), ("2024-01-03", 1)],
    clicks_by_user_agent := [("Mozilla/5.0", 2), ("Chrome", 1)],
    first_click := some "2024-01-02T10:00:00",
    last_click := some "2024-01-03T09:00:00" }

/-- C4: `get_click_stats` answers `none` exactly for absent tokens;
on a known token it reports `total_clicks` equal to the number of click
records, `unique_ips` equal to the order-independent set cardinality of
the recorded IP addresses, and `first_click` / `last_click` equal to
the timestamps of the first and last records in insertion order
(`none` when the click list is empty). -/
theorem get_click_stats_spec (s : Store) (token : String) :
    (get_click_stats s token = none ↔ lookupA s.tokens token = none) ∧
    (∀ st, get_click_stats s token = some st →
      st.total_clicks = ((lookupA s.clicks token).getD []).length ∧
      st.unique_ips = (((lookupA s.clicks token).getD []).map (fun c => c.ip_address)).toFinset.card ∧
      st.first_click = (((lookupA s.clicks token).getD []).map (fun c => c.timestamp)).head? ∧
      st.last_click = (((lookupA s.clicks token).getD []).map (fun c => c.timestamp)).getLast?) := by
  constructor
  · cases hr : lookupA s.tokens token with
    | none => simp [get_click_stats, hr]
    | some r => simp [get_click_stats, hr]
  · intro st hst
    cases hr : lookupA s.tokens token with
    | none => simp [get_click_stats, hr] at hst
    | some r =>
      rw [get_click_stats_eq s token r hr] at hst
      injection hst with hst
      subst hst
      refine ⟨rfl, ?_, ?_, ?_⟩
      · simp [List.card_toFinset]
      · simp [List.head?_map]
      · simp [List.getLast?_map]

/-- Witness for C4: the sample store has 3 clicks from 2 distinct IPs
(`{"1.1.1.1", "1.1.1.1", "2.2.2.2"}`), and an unknown token is
absent. -/
theorem get_click_stats_spec_witness :
    sampleStats.total_clicks = ((lookupA sampleStore.clicks "tok").getD []).length ∧
    sampleStats.unique_ips =
      (((lookupA sampleStore.clicks "tok").getD []).map (fun c => c.ip_address)).toFinset.card ∧
    sampleStats.first_click =
      (((lookupA sampleStore.clicks "tok").getD []).map (fun c => c.timestamp)).head? ∧
    sampleStats.last_click =
      (((lookupA sampleStore.clicks "tok").getD []).map (fun c => c.timestamp)).getLast? ∧
    get_click_stats sampleStore "doesnotexist" = none := by
  have h := (get_click_stats_spec sampleStore "tok").2 sampleStats (by decide)
  exact ⟨h.1, h.2.1, h.2.2.1, h.2.2.2,
    (get_click_stats_spec sampleStore "doesnotexist").1.mpr (by decide)⟩

/-- C7: in the statistics of a known token, `clicks_by_date` maps each
calendar date (the part of a click timestamp before the `'T'`) to the
number of clicks on that day, and `clicks_by_user_agent` maps each
user-agent string truncated to its first 50 characters to the number of
clicks sharing that truncated prefix; a key is absent exactly when its
count is zero, so distinct full user agents with a common 50-character
prefix land in one bucket. -/
theorem get_click_stats_grouping (s : Store) (token : String) (st : ClickStats)
    (hst : get_click_stats s token = some st) :
    (∀ d, (lookupA st.clicks_by_date d).getD 0 =
      ((lookupA s.clicks token).getD []).countP (fun c => datePartOf c.timestamp == d)) ∧
    (∀ d, lookupA st.clicks_by_date d = none ↔
      ((lookupA s.clicks token).getD []).countP (fun c => datePartOf c.timestamp == d) = 0) ∧
    (∀ u, (lookupA st.clicks_by_user_agent u).getD 0 =
      ((lookupA s.clicks token).getD []).countP (fun c => takeChars 50 c.user_agent == u)) ∧
    (∀ u, lookupA st.clicks_by_user_agent u = none ↔
      ((lookupA s.clicks token).getD []).countP (fun c => takeChars 50 c.user_agent == u) = 0) := by
  cases hr : lookupA s.tokens token with
  | none => simp [get_click_stats, hr] at hst
  | some r =>
    rw [get_click_stats_eq s token r hr] at hst
    injection hst with hst
    subst hst
    refine ⟨fun d => ?_, fun d => ?_, fun u => ?_, fun u => ?_⟩
    · simpa [lookupA] using lookupA_foldl_bump_getD (fun c : ClickRecord => datePartOf c.timestamp)
        ((lookupA s.clicks token).getD []) [] d
    · simpa [lookupA] using lookupA_foldl_bump_none (fun c : ClickRecord => datePartOf c.timestamp)
        ((lookupA s.clicks token).getD []) [] d
    · simpa [lookupA] using lookupA_foldl_bump_getD (fun c : ClickRecord => takeChars 50 c.user_agent)
        ((lookupA s.clicks token).getD []) [] u
    · simpa [lookupA] using lookupA_foldl_bump_none (fun c : ClickRecord => takeChars 50 c.user_agent)
        ((lookupA s.clicks token).getD []) [] u

/-- Witness for C7 on the sample store: 2 clicks on 2024-01-02 and 2
clicks with user agent `Mozilla/5.0`. -/
theorem get_click_stats_grouping_witness :
    (lookupA sampleStats.clicks_by_date "2024-01-02").getD 0 =
      ((lookupA sampleStore.clicks "tok").getD []).countP
        (fun c => datePartOf c.timestamp == "2024-01-02") ∧
    (lookupA sampleStats.clicks_by_user_agent "Mozilla/5.0").getD 0 =
      ((lookupA sampleStore.clicks "tok").getD []).countP
        (fun c => takeChars 50 c.user_agent == "Mozilla/5.0") := by
  have h := get_click_stats_grouping sampleStore "tok" sampleStats (by decide)
  exact ⟨h.1 "2024-01-02", h.2.2.1 "Mozilla/5.0"⟩

theorem matchAtoms_nil_iff (cs : List Char) :
    matchAtoms [] cs = true ↔ cs = [] ∨ cs = ['\n'] := by
  simp [matchAtoms]

theorem matchAtoms_one_iff (f : Char → Bool) (ps : List RAtom) (cs : List Char) :
    matchAtoms (⟨f, Quant.one⟩ :: ps) cs = true ↔
      ∃ c cs2, cs = c :: cs2 ∧ f c = true ∧ matchAtoms ps cs2 = true := by
  cases cs with
  | nil => simp [matchAtoms]
  | cons c cs2 =>
    simp only [matchAtoms, Bool.and_eq_true]
    constructor
    · rintro ⟨hf, hm⟩; exact ⟨c, cs2, rfl, hf, hm⟩
    · rintro ⟨c2, cs3, heq, hf, hm⟩
      injection heq with h1 h2
      subst h1; subst h2
      exact ⟨hf, hm⟩

theorem matchAtoms_opt_iff (f : Char → Bool) (ps : List RAtom) (cs : List Char) :
    matchAtoms (⟨f, Quant.opt⟩ :: ps) cs = true ↔
      matchAtoms ps cs = true ∨
        ∃ c cs2, cs = c :: cs2 ∧ f c = true ∧ matchAtoms ps cs2 = true := by
  cases cs with
  | nil => simp [matchAtoms]
  | cons c cs2 =>
    simp only [matchAtoms, Bool.or_eq_true, Bool.and_eq_true]
    constructor
    · rintro (⟨hf, hm⟩ | hm)
      · exact Or.inr ⟨c, cs2, rfl, hf, hm⟩
      · exact Or.inl hm
    · rintro (hm | ⟨c2, cs3, heq, hf, hm⟩)
      · exact Or.inr hm
      · injection heq with h1 h2
        subst h1; subst h2
        exact Or.inl ⟨hf, hm⟩

theorem matchAtoms_star_iff (f : Char → Bool) (ps : List RAtom) (cs : List Char) :
    matchAtoms (⟨f, Quant.star⟩ :: ps) cs = true ↔
      ∃ pre suf, cs = pre ++ suf ∧ (∀ c ∈ pre, f c = true) ∧
        matchAtoms ps suf = true := by
  induction cs with
  | nil =>
    simp only [matchAtoms]
    constructor
    · intro h; exact ⟨[], [], rfl, by simp, h⟩
    · rintro ⟨pre, suf, heq, _, h⟩
      rw [List.nil_eq, List.append_eq_nil] at heq
      obtain ⟨rfl, rfl⟩ := heq
      exact h
  | cons c cs2 ih =>
    simp only [matchAtoms, Bool.or_eq_true, Bool.and_eq_true, ih]
    constructor
    · rintro (⟨hf, pre, suf, heq, hall, hm⟩ | hm)
      · refine ⟨c :: pre, suf, by rw [heq, List.cons_append], ?_, hm⟩
        intro x hx
        rcases List.mem_cons.mp hx with rfl | hx2
        · exact hf
        · exact hall x hx2
      · exact ⟨[], c :: cs2, rfl, by simp, hm⟩
    · rintro ⟨pre, suf, heq, hall, hm⟩
      cases pre with
      | nil => exact Or.inr (by rw [List.nil_append] at heq; rwa [heq])
      | cons c2 pre2 =>
        rw [List.cons_append] at heq
        injection heq with h1 h2
        subst h1
        exact Or.inl ⟨hall c (by simp),
          pre2, suf, h2, fun x hx => hall x (by simp [hx]), hm⟩

/-- The set of strings accepted by the email regex, spelled out: a
nonempty local part over `[a-zA-Z0-9._%+-]`, an `'@'`, a nonempty
domain part over `[a-zA-Z0-9.-]`, a `'.'`, a TLD of at least two ASCII
letters, and (because of how `$` behaves) an optional single trailing
newline. -/
def EmailShape (cs : List Char) : Prop :=
  ∃ l d t nl, cs = l ++ '@' :: (d ++ '.' :: (t ++ nl)) ∧
    l ≠ [] ∧ (∀ c ∈ l, isLocalChar c = true) ∧
    d ≠ [] ∧ (∀ c ∈ d, isDomainChar c = true) ∧
    2 ≤ t.length ∧ (∀ c ∈ t, c.isAlpha = true) ∧
    (nl = [] ∨ nl = ['\n'])

theorem emailPattern_iff (cs : List Char) :
    matchAtoms emailPattern cs = true ↔ EmailShape cs := by
  simp only [emailPattern, litAtom, matchAtoms_one_iff, matchAtoms_star_iff,
    matchAtoms_nil_iff, decide_eq_true_eq]
  constructor
  · rintro ⟨c1, cs1, rfl, hc1, p1, s1, rfl, hp1, a, r2, rfl, rfl, c2, r3, rfl, hc2,
      p2, s2, rfl, hp2, dt, r4, rfl, rfl, t1, r5, rfl, ht1, t2, r6, rfl, ht2,
      p3, s3, rfl, hp3, hnl⟩
    refine ⟨c1 :: p1, c2 :: p2, t1 :: t2 :: p3, s3, ?_, by simp, ?_, by simp, ?_,
      by simp, ?_, hnl⟩
    · simp [List.cons_append, List.append_assoc]
    · intro c hc
      rcases List.mem_cons.mp hc with rfl | hc2x
      · exact hc1
      · exact hp1 c hc2x
    · intro c hc
      rcases List.mem_cons.mp hc with rfl | hc2x
      · exact hc2
      · exact hp2 c hc2x
    · intro c hc
      rcases List.mem_cons.mp hc with rfl | hc2x
      · exact ht1
      rcases List.mem_cons.mp hc2x with rfl | hc3x
      · exact ht2
      · exact hp3 c hc3x
  · rintro ⟨l, d, t, nl, rfl, hl, hlmem, hd, hdmem, hlen, htmem, hnl⟩
    cases l with
    | nil => exact absurd rfl hl
    | cons c1 p1 =>
    cases d with
    | nil => exact absurd rfl hd
    | cons c2 p2 =>
    cases t with
    | nil => simp at hlen
    | cons t1 t5 =>
    cases t5 with
    | nil => simp at hlen
    | cons t2 p3 =>
    refine ⟨c1, _, by simp [List.cons_append, List.append_assoc],
      hlmem c1 (by simp), p1, _, rfl, fun c hc => hlmem c (by simp [hc]),
      '@', _, rfl, rfl, c2, _, rfl, hdmem c2 (by simp),
      p2, _, rfl, fun c hc => hdmem c (by simp [hc]),
      '.', _, rfl, rfl, t1, _, rfl, htmem t1 (by simp),
      t2, _, rfl, htmem t2 (by simp),
      p3, nl, rfl, fun c hc => htmem c (by simp [hc]), hnl⟩

/-- The set of strings accepted by the URL regex, spelled out: a scheme
`http`/`https` with each letter in either case, `://`, then a body of
at least two characters whose first character is neither whitespace nor
one of `/ $ . ? #`, whose second character is anything but a newline,
and whose remaining characters contain no whitespace, followed (because
of how `$` behaves) by an optional single trailing newline.  The
optional scheme letter after `http` is `s`, `S` or U+017F LATIN SMALL
LETTER LONG S, the full set of code points the `re` module matches
against the literal `s` under Unicode `IGNORECASE`. -/
def UrlShape (cs : List Char) : Prop :=
  ∃ h1 t1 t2 p1 sopt c1 c2 rest nl,
    cs = h1 :: t1 :: t2 :: p1 ::
      (sopt ++ ':' :: '/' :: '/' :: c1 :: c2 :: (rest ++ nl)) ∧
    (h1 = 'h' ∨ h1 = 'H') ∧ (t1 = 't' ∨ t1 = 'T') ∧ (t2 = 't' ∨ t2 = 'T') ∧
    (p1 = 'p' ∨ p1 = 'P') ∧
    (sopt = [] ∨ sopt = ['s'] ∨ sopt = ['S'] ∨ sopt = ['ſ']) ∧
    pyIsSpace c1 = false ∧ c1 ≠ '/' ∧ c1 ≠ '$' ∧ c1 ≠ '.' ∧ c1 ≠ '?' ∧ c1 ≠ '#' ∧
    c2 ≠ '\n' ∧ (∀ c ∈ rest, pyIsSpace c = false) ∧ (nl = [] ∨ nl = ['\n'])

theorem urlPattern_iff (cs : List Char) :
    matchAtoms urlPattern cs = true ↔ UrlShape cs := by
  have hh : Char.toUpper 'h' = 'H' := by decide
  have htu : Char.toUpper 't' = 'T' := by decide
  have hpu : Char.toUpper 'p' = 'P' := by decide
  simp only [urlPattern, ciLit, litAtom, matchAtoms_one_iff, matchAtoms_opt_iff,
    matchAtoms_star_iff, matchAtoms_nil_iff, decide_eq_true_eq, Bool.or_eq_true,
    Bool.not_eq_true', Bool.or_eq_false_iff, decide_eq_false_iff_not, hh, htu, hpu]
  constructor
  · rintro ⟨h1, r1, rfl, hh1, t1c, r2, rfl, ht1, t2c, r3, rfl, ht2, p1c, r4, rfl, hp1, hopt⟩
    rcases hopt with hrest | ⟨sC, r5, rfl, hsC, hrest⟩
    · obtain ⟨a1, r6, rfl, rfl, a2, r7, rfl, rfl, a3, r8, rfl, rfl,
        c1, r9, rfl, ⟨⟨⟨⟨⟨hc1a, hc1b⟩, hc1c⟩, hc1d⟩, hc1e⟩, hc1f⟩,
        c2, r10, rfl, hc2, rest, s3, rfl, hrestmem, hnl⟩ := hrest
      exact ⟨h1, t1c, t2c, p1c, [], c1, c2, rest, s3, by simp, hh1, ht1, ht2, hp1,
        Or.inl rfl, hc1a, hc1b, hc1c, hc1d, hc1e, hc1f, hc2, hrestmem, hnl⟩
    · obtain ⟨a1, r6, rfl, rfl, a2, r7, rfl, rfl, a3, r8, rfl, rfl,
        c1, r9, rfl, ⟨⟨⟨⟨⟨hc1a, hc1b⟩, hc1c⟩, hc1d⟩, hc1e⟩, hc1f⟩,
        c2, r10, rfl, hc2, rest, s3, rfl, hrestmem, hnl⟩ := hrest
      refine ⟨h1, t1c, t2c, p1c, [sC], c1, c2, rest, s3, by simp, hh1, ht1, ht2, hp1,
        ?_, hc1a, hc1b, hc1c, hc1d, hc1e, hc1f, hc2, hrestmem, hnl⟩
      rcases hsC with (rfl | rfl) | rfl
      · exact Or.inr (Or.inl rfl)
      · exact Or.inr (Or.inr (Or.inl rfl))
      · exact Or.inr (Or.inr (Or.inr rfl))
  · rintro ⟨h1, t1c, t2c, p1c, sopt, c1, c2, rest, nl, rfl, hh1, ht1, ht2, hp1,
      hsopt, hc1a, hc1b, hc1c, hc1d, hc1e, hc1f, hc2, hrestmem, hnl⟩
    refine ⟨h1, _, rfl, hh1, t1c, _, rfl, ht1, t2c, _, rfl, ht2, p1c, _, rfl, hp1, ?_⟩
    rcases hsopt with rfl | rfl | rfl | rfl
    · exact Or.inl ⟨':', _, rfl, rfl, '/', _, rfl, rfl, '/', _, rfl, rfl,
        c1, _, rfl, ⟨⟨⟨⟨⟨hc1a, hc1b⟩, hc1c⟩, hc1d⟩, hc1e⟩, hc1f⟩,
        c2, _, rfl, hc2, rest, nl, rfl, hrestmem, hnl⟩
    · exact Or.inr ⟨'s', _, rfl, Or.inl (Or.inl rfl), ':', _, rfl, rfl, '/', _, rfl, rfl,
        '/', _, rfl, rfl, c1, _, rfl, ⟨⟨⟨⟨⟨hc1a, hc1b⟩, hc1c⟩, hc1d⟩, hc1e⟩, hc1f⟩,
        c2, _, rfl, hc2, rest, nl, rfl, hrestmem, hnl⟩
    · exact Or.inr ⟨'S', _, rfl, Or.inl (Or.inr rfl), ':', _, rfl, rfl, '/', _, rfl, rfl,
        '/', _, rfl, rfl, c1, _, rfl, ⟨⟨⟨⟨⟨hc1a, hc1b⟩, hc1c⟩, hc1d⟩, hc1e⟩, hc1f⟩,
        c2, _, rfl, hc2, rest, nl, rfl, hrestmem, hnl⟩
    · exact Or.inr ⟨'ſ', _, rfl, Or.inr rfl, ':', _, rfl, rfl, '/', _, rfl, rfl,
        '/', _, rfl, rfl, c1, _, rfl, ⟨⟨⟨⟨⟨hc1a, hc1b⟩, hc1c⟩, hc1d⟩, hc1e⟩, hc1f⟩,
        c2, _, rfl, hc2, rest, nl, rfl, hrestmem, hnl⟩

/-- Counterexample to the description in C8 of the accepted sets:
`"http://a"` has an `http` scheme followed by a non-whitespace body but
is rejected (the regex `.` demands a second body character);
`"http://a b"` contains whitespace in the body but is accepted (the
`.` atom may match the space); and `validate_email` accepts a string
with a trailing newline (the `$` rule of Python). -/
theorem validators_description_counterexample :
    validate_url "http://a" = false ∧
    validate_url "http://a b" = true ∧
    validate_email "a@b.co\n" = true := by
  refine ⟨?_, ?_, ?_⟩
  · simp only [validate_url, matchAtoms, urlPattern, ciLit, litAtom]; decide
  · simp only [validate_url, matchAtoms, urlPattern, ciLit, litAtom]; decide
  · simp only [validate_email, matchAtoms, emailPattern, litAtom]; decide

/-- C8 (amended): `validate_email` and `validate_url` are pure
predicates (modelled as plain functions of the string).
`validate_email` accepts exactly the strings of shape
local-part `@` domain `.` TLD — nonempty local part over
`[a-zA-Z0-9._%+-]`, nonempty domain over `[a-zA-Z0-9.-]`, TLD of at
least 2 ASCII letters — with an optional single trailing newline.
`validate_url` accepts exactly the strings with an `http` or `https`
scheme — each of `h`, `t`, `p` in either ASCII case, and the optional
`s` matched by `s`, `S` or U+017F LATIN SMALL LETTER LONG S, the full
Unicode `IGNORECASE` equivalence set of the `re` module — and `://`
followed by a body of at least two characters whose first character is
neither whitespace nor `/ $ . ? #`, whose second character is any
character but a newline, and whose remainder is free of whitespace,
with an optional single trailing newline.  In particular
`validate_url "https://example.com/x" = true`,
`validate_url "ftp://bad" = false`, `validate_email "a@b.co" = true`,
`validate_email "not-an-email" = false`, and the long-s scheme
`validate_url "httpſ://ab" = true`. -/
theorem validators_characterization (s : String) :
    (validate_email s = true ↔ EmailShape s.data) ∧
    (validate_url s = true ↔ UrlShape s.data) ∧
    validate_url "https://example.com/x" = true ∧
    validate_url "ftp://bad" = false ∧
    validate_email "a@b.co" = true ∧
    validate_email "not-an-email" = false ∧
    validate_url "httpſ://ab" = true := by
  refine ⟨emailPattern_iff s.data, urlPattern_iff s.data, ?_, ?_, ?_, ?_, ?_⟩
  · simp only [validate_url, matchAtoms, urlPattern, ciLit, litAtom]; decide
  · simp only [validate_url, matchAtoms, urlPattern, ciLit, litAtom]; decide
  · simp only [validate_email, matchAtoms, emailPattern, litAtom]; decide
  · simp only [validate_email, matchAtoms, emailPattern, litAtom]; decide
  · simp only [validate_url, matchAtoms, urlPattern, ciLit, litAtom]; decide
